import Mathlib

/-!
Shallow embedding of `aetros/starter.py` (`start_custom` and its helpers).

The supervisor is modelled as a pure function from the job/project
configuration and an environment oracle (outcomes of the external commands it
invokes) to a trace of observable store/process events plus a final outcome.
Python values that can be a string, a list, or absent are modelled by
`StrOrList`; Python truthiness of those values by `StrOrList.truthy`.
Machine integers in this code are exit codes, modelled as `Int` (Python ints
never overflow).  The uncaught `TypeError`s the source can raise (the
swapped-argument `dockerfile.insert('FROM ' + image, 0)` on line 92, and the
string-plus-None concatenation reachable on line 101) are modelled by the
`Outcome.crashed` result.
-/

/-- A configuration value that is a plain string or an argv vector
(Python: `str` or `list`). -/
inductive CmdVal where
  | str (s : String)
  | vec (l : List String)
deriving DecidableEq, Repr

/-- A configuration value that may be absent, a string, or a list of strings
(Python: `None`, `str`, or `list`). -/
inductive StrOrList where
  | absent
  | str (s : String)
  | list (l : List String)
deriving DecidableEq, Repr

/-- Python truthiness of a `None`-or-`str`-or-`list` value: `None`, `''` and
`[]` are falsy. -/
def StrOrList.truthy : StrOrList → Bool
  | .absent => false
  | .str s => s ≠ ""
  | .list l => l ≠ []

/-- The job-level configuration keys read by `start_custom`
(`job_backend.job['config']`). -/
structure JobConfig where
  command : Option CmdVal
  image : Option String
deriving DecidableEq, Repr

/-- The project-level configuration (`read_config(work_tree + '/.aetros.yml')`),
with the defaults `read_config` guarantees for the keys `start_custom`
accesses unconditionally. -/
structure ProjectConfig where
  command : Option CmdVal
  dockerfile : StrOrList
  install : StrOrList
  docker : String
  docker_options : List String
deriving DecidableEq, Repr

/-- The two output streams a child process exposes. -/
inductive Pipe where
  | stdout
  | stderr
deriving DecidableEq, Repr

/-- Observable events of one `start_custom` run: versioned-store writes,
file writes, helper-command executions (`execute_command`,
`execute_command_stdout`, `subprocess.call`, each modelled as one atomic
event), and the launch/drain/wait/finalize steps of the supervised child. -/
inductive Event where
  | setInfo (key value : String)
  | batch (label : String) (writes : List (String × String))
  | commitFile (path : String)
  | writeFile (path : String) (content : String)
  | exec (argv : List String)
  | popen (argv : List String)
  | attachDrain (p : Pipe)
  | finalizeDrain (p : Pipe)
  | procWait
  | procWaitInterrupted
  | failJob (msg : Option String)
  | stopJob
  | abortJob
  | errorLog (msg : String)
  | warnLog (msg : String)
deriving DecidableEq, Repr

/-- How the `start_custom` call ends: `sys.exit(code)`, a plain return
(the `KeyboardInterrupt` handler falls off the end of the function), or an
uncaught exception. -/
inductive Outcome where
  | exited (code : Int)
  | finished
  | crashed (msg : String)
deriving DecidableEq, Repr

/-- Lifecycle states of §4.5 that matter to the claims. -/
inductive JState where
  | done
  | failed
  | aborted
  | stopped
deriving DecidableEq, Repr

/-- One record of `docker inspect` output, restricted to the fields the code
reads (values stringified). -/
structure Inspection where
  id : String
  dockerVersion : String
  created : String
  container : String
  architecture : String
  os : String
  size : String
  rootfs : String
deriving DecidableEq, Repr

/-- Environment oracle: the results of the external interactions
`start_custom` performs.  `interrupted` means a `KeyboardInterrupt` is raised
while the control thread blocks in the main `p.wait()`;
`childRunningAtPoll` is the value of `p.poll() is None` inside the interrupt
handler; `hasProgressFile` is `git.has_file('aetros/job/status/progress.json')`. -/
structure Env where
  dockerfileExists : Bool
  buildRc : Int
  pullRc : Int
  inspectRc : Int
  inspections : List Inspection
  childRc : Int
  interrupted : Bool
  childRunningAtPoll : Bool
  hasProgressFile : Bool
deriving DecidableEq, Repr

/-- Line 65's second conjunct: `project_config['command'] == ''` (a list
compares unequal to `''` in Python). -/
def cmd_is_empty_str : Option CmdVal → Bool
  | some (.str s) => s = ""
  | _ => false

/-- Line 65: `'command' not in job_config and ('command' not in project_config
or project_config['command'] == '')`. -/
def missing_command (jc : JobConfig) (pc : ProjectConfig) : Bool :=
  jc.command.isNone && (pc.command.isNone || cmd_is_empty_str pc.command)

/-- Lines 69–72: job-level `command` overrides project-level `command`.
The `.str ""` default is unreachable when `missing_command` is false. -/
def resolve_command (jc : JobConfig) (pc : ProjectConfig) : CmdVal :=
  match jc.command with
  | some c => c
  | none => pc.command.getD (.str "")

/-- Does the second list begin with the first one?  (Structurally recursive
so that concrete instances evaluate in the kernel.) -/
def startsWithChars : List Char → List Char → Bool
  | [], _ => true
  | _ :: _, [] => false
  | p :: ps, c :: cs => p = c && startsWithChars ps cs

/-- Python's `s.startswith(pre)`. -/
def str_starts (s pre : String) : Bool := startsWithChars pre.data s.data

/-- The provenance comment prepended to every synthesized Dockerfile
(line 103). -/
def aetros_comment : String :=
  "# CREATED BY AETROS because of \"install\" or \"dockerfile\" config in .aetros.yml."

/-- Lines 88–104: synthesize the Dockerfile content.  `none` models the
uncaught `TypeError`s: line 92 calls `dockerfile.insert('FROM ' + image, 0)`
with its arguments swapped (first argument must be an int), and line 101 adds
`None` to a string when `install` is absent. -/
def synth_dockerfile_content (image : String) (dockerfile install : StrOrList) : Option String :=
  let body? : Option String :=
    match dockerfile with
    | .str s => some s
    | .list (l₀ :: rest) =>
      if str_starts l₀ "FROM " then some (String.intercalate "\n" (l₀ :: rest))
      else none
    | .list [] | .absent =>
      match install with
      | .list l => some ("FROM " ++ image ++ "\nRUN " ++ String.intercalate "\n RUN " l)
      | .str s => some ("FROM " ++ image ++ "\nRUN " ++ s)
      | .absent => none
  body?.map (fun b => aetros_comment ++ "\n" ++ b)

/-- Line 87: `isinstance(dockerfile, six.string_types) and
os.path.exists(dockerfile)` — when it holds, the named file is used directly. -/
def dockerfile_path? (d : StrOrList) (env : Env) : Option String :=
  match d with
  | .str s => if env.dockerfileExists then some s else none
  | _ => none

/-- Lines 87–110: either locate an existing Dockerfile path (no events) or
synthesize one, write it to the work tree and commit it; `none` is the
uncaught `TypeError` of `synth_dockerfile_content`. -/
def resolve_dockerfile (image : String) (pc : ProjectConfig) (env : Env) :
    Option (List Event × String) :=
  match dockerfile_path? pc.dockerfile env with
  | some dfile => some ([], dfile)
  | none =>
    match synth_dockerfile_content image pc.dockerfile pc.install with
    | none => none
    | some content =>
      some ([Event.writeFile "Dockerfile" content, Event.commitFile "Dockerfile"], "Dockerfile")

/-- The eight pending writes of the `batch_commit('Docker image')` scope
(lines 139–146), in source order. -/
def inspectionWrites (i : Inspection) : List (String × String) :=
  [("image/id", i.id), ("image/docker_version", i.dockerVersion),
   ("image/created", i.created), ("image/container", i.container),
   ("image/architecture", i.architecture), ("image/os", i.os),
   ("image/size", i.size), ("image/rootfs", i.rootfs)]

/-- Result of the provisioning section: either the run aborts (events so far
plus the outcome) or it continues with a resolved image reference. -/
inductive ProvResult where
  | abortRun (events : List Event) (o : Outcome)
  | ok (events : List Event) (image : String)
deriving DecidableEq, Repr

/-- Lines 130–149: pull the image (the pull's return code is not consulted),
inspect it (`execute_command_stdout` raises on a non-zero exit), persist the
eight provenance fields in one `batch_commit` scope when the inspection list
is non-empty, then remove any stale container named after the job id. -/
def pull_inspect_rm (jobId : String) (pc : ProjectConfig) (env : Env) (image : String) :
    ProvResult :=
  let ePull := Event.exec [pc.docker, "pull", image]
  let eInspect := Event.exec [pc.docker, "inspect", image]
  if env.inspectRc ≠ 0 then
    .abortRun [ePull, eInspect] (.crashed "Could not execute command")
  else
    let eBatch :=
      match env.inspections with
      | [] => []
      | i :: _ => [Event.batch "Docker image" (inspectionWrites i)]
    .ok ([ePull, eInspect] ++ eBatch ++ [Event.exec [pc.docker, "rm", jobId]]) image

/-- Lines 81–149: the containerized provisioning section.  `image/name` is
written immediately (line 82); a build happens only when `dockerfile` or
`install` is truthy (line 84); a non-zero build exit fails the job and exits
with the build tool's code (lines 124–126); after a build the image reference
becomes the model name (line 128). -/
def provision (mn jobId image : String) (pc : ProjectConfig) (env : Env) : ProvResult :=
  let e0 := [Event.setInfo "image/name" image]
  if pc.dockerfile.truthy || pc.install.truthy then
    match resolve_dockerfile image pc env with
    | none => .abortRun e0 (.crashed "TypeError")
    | some (eSynth, dfile) =>
      let buildCmd := [pc.docker, "build", "-t", mn, "-f", dfile, "."]
      let e1 := e0 ++ eSynth ++ [Event.exec buildCmd]
      if env.buildRc ≠ 0 then
        .abortRun (e1 ++ [Event.failJob (some "Image build error")]) (.exited env.buildRc)
      else
        match pull_inspect_rm jobId pc env mn with
        | .abortRun es o => .abortRun (e1 ++ es) o
        | .ok es img => .ok (e1 ++ es) img
  else
    match pull_inspect_rm jobId pc env image with
    | .abortRun es o => .abortRun (e0 ++ es) o
    | .ok es img => .ok (e0 ++ es) img

/-- Lines 151–166: assemble the `docker run` argument vector. -/
def build_docker_command (docker jobId workTree : String) (opts : List String)
    (image : String) (command : CmdVal) : List String :=
  let dc := [docker, "run", "--name", jobId]
  let dc := dc ++ opts
  let dc := dc ++ ["--mount", "type=bind,source=" ++ workTree ++ ",destination=/exp"]
  let dc := dc ++ ["-w", "/exp"]
  let dc := dc ++ [image]
  match command with
  | .vec l => dc ++ l
  | .str s => dc ++ ["sh", "-c", s]

/-- The container-run arguments up to and including the image reference, as
the spec describes them: runtime binary, `run`, `--name <job id>`, the
configured docker_options in order, a bind mount of the work tree to `/exp`,
the working-directory option `/exp`, then the image reference.  Written from
the spec's words, for comparison with the builder embedded from the source. -/
def docker_run_base (docker jobId workTree : String) (opts : List String)
    (image : String) : List String :=
  [docker, "run", "--name", jobId] ++ opts ++
    ["--mount", "type=bind,source=" ++ workTree ++ ",destination=/exp", "-w", "/exp", image]

/-- Lines 170–171: a plain-string command is wrapped as `['sh', '-c', cmd]`,
a vector is used verbatim. -/
def finalize_command : CmdVal → List String
  | .vec l => l
  | .str s => ["sh", "-c", s]

/-- Lines 179–211: spawn the resolved command, attach one drain per stream,
wait, finalize both drains, record the exit code and propagate it — or, on a
`KeyboardInterrupt` raised in the main `p.wait()`, re-wait and re-finalize
only when `p.poll() is None`, then classify via the nested status file. -/
def run_main (command : List String) (env : Env) : List Event × Outcome :=
  let launch := [Event.popen command, Event.attachDrain .stdout, Event.attachDrain .stderr]
  if env.interrupted then
    let drained :=
      if env.childRunningAtPoll then
        [Event.procWait, Event.finalizeDrain .stdout, Event.finalizeDrain .stderr]
      else []
    let clas :=
      if env.hasProgressFile then [Event.stopJob]
      else [Event.warnLog "Job aborted.", Event.abortJob]
    (launch ++ [Event.procWaitInterrupted] ++ drained ++ clas, .finished)
  else
    let tail :=
      [Event.procWait, Event.finalizeDrain .stdout, Event.finalizeDrain .stderr,
       Event.setInfo "exit_code" (toString env.childRc)] ++
      (if env.childRc ≠ 0 then [Event.failJob none] else [])
    (launch ++ tail, .exited env.childRc)

/-- Lines 46–211: `start_custom`.  Arguments: the model name
(`job_backend.model_name`), the job id, the work tree path, the job and
project configurations, and the environment oracle. -/
def start_custom (mn jobId workTree : String) (jc : JobConfig) (pc : ProjectConfig)
    (env : Env) : List Event × Outcome :=
  if missing_command jc pc then
    ([Event.errorLog "No \"command\" specified in .aetros.yml file. See Configuration section in the documentation."],
     .exited 1)
  else
    let command := resolve_command jc pc
    match jc.image with
    | some image =>
      match provision mn jobId image pc env with
      | .abortRun es o => (es, o)
      | .ok es rimage =>
        let dockerCmd := build_docker_command pc.docker jobId workTree pc.docker_options rimage command
        let (es2, o) := run_main dockerCmd env
        (es ++ es2, o)
    | none =>
      run_main (finalize_command command) env

/-- The terminal transition an event records, if any. -/
def terminalOf : Event → Option JState
  | .failJob _ => some .failed
  | .stopJob => some .stopped
  | .abortJob => some .aborted
  | _ => none

/-- The last explicit terminal transition (`fail` / `stop` / `abort`) recorded
in a trace. -/
def lastTerminal : List Event → Option JState
  | [] => none
  | e :: rest =>
    match lastTerminal rest with
    | some s => some s
    | none => terminalOf e

/-- Modelled from the spec: the final lifecycle state of a run.  The
`JobBackend` shutdown handler lives in `aetros/backend.py`, which is not part
of the supervised slice; §4.5 says a run whose process exits with code 0 and
no explicit terminal transition ends `Done`, and one that exits non-zero ends
`Failed`.  An explicit `fail`/`stop`/`abort` transition recorded in the trace
takes precedence. -/
def finalJobState (t : List Event) (o : Outcome) : Option JState :=
  match lastTerminal t with
  | some s => some s
  | none =>
    match o with
    | .exited n => if n = 0 then some .done else some .failed
    | _ => none

/-- The lines of a string, as character lists, splitting on newline
(`"a\nb"` has lines `['a']` and `['b']`; the empty string has one empty
line, matching Python's and `String.splitOn`'s convention). -/
def charLines : List Char → List (List Char)
  | [] => [[]]
  | c :: rest =>
    if c = '\n' then [] :: charLines rest
    else
      match charLines rest with
      | [] => [[c]]
      | l :: ls => (c :: l) :: ls

/-- A Dockerfile line is a comment when its first character is `#`. -/
def isCommentLine : List Char → Bool
  | '#' :: _ => true
  | _ => false

/-- The lines of a synthesized build file that are not comments. -/
def nonCommentLinesC (s : List Char) : List (List Char) :=
  (charLines s).filter (fun l => !isCommentLine l)

/-- Does a trace contain a `popen` (supervised-child launch) event? -/
def hasPopen (t : List Event) : Bool :=
  t.any (fun e => match e with | .popen _ => true | _ => false)

/-- Scan of the trace suffix after the supervised child is launched: no second
launch, no further drain attach, and a drain finalizer only after a completed
`wait` (an interrupted `wait` does not count: the process has not been
observed to terminate). -/
def afterLaunch (seenWait : Bool) : List Event → Bool
  | [] => true
  | .popen _ :: _ => false
  | .attachDrain _ :: _ => false
  | .finalizeDrain _ :: rest => seenWait && afterLaunch seenWait rest
  | .procWait :: rest => afterLaunch true rest
  | _ :: rest => afterLaunch seenWait rest

/-- The drain discipline of §4.4/§5 over a whole trace: before the launch
there is no attach, finalize or wait event; the launch is immediately followed
by exactly one stdout attach and one stderr attach; and afterwards
`afterLaunch` holds. -/
def drainDiscipline : List Event → Bool
  | [] => true
  | .popen _ :: .attachDrain .stdout :: .attachDrain .stderr :: rest => afterLaunch false rest
  | .popen _ :: _ => false
  | .attachDrain _ :: _ => false
  | .finalizeDrain _ :: _ => false
  | .procWait :: _ => false
  | .procWaitInterrupted :: _ => false
  | _ :: rest => drainDiscipline rest

/-- The `image/*` keys written by plain (non-transactional) `set_system_info`
calls in a trace. -/
def imageKeysOutsideBatch (t : List Event) : List String :=
  t.filterMap
    (fun e =>
      match e with
      | .setInfo k _ => if str_starts k "image/" then some k else none
      | _ => none)

/-- The eight image provenance keys of the `batch_commit('Docker image')`
scope, in source order. -/
def imageBatchKeys : List String :=
  ["image/id", "image/docker_version", "image/created", "image/container",
   "image/architecture", "image/os", "image/size", "image/rootfs"]

/-- Events the provisioning section can emit on its successful path: the
immediate `image/name` write, Dockerfile write/commit, helper-command
executions, and the eight-key `Docker image` batch. -/
def provOkEvent : Event → Bool
  | .setInfo k _ => k == "image/name"
  | .batch label ws => label == "Docker image" && ws.map Prod.fst == imageBatchKeys
  | .commitFile _ => true
  | .writeFile _ _ => true
  | .exec _ => true
  | _ => false

/-- Events the provisioning section can emit at all: its successful-path
events plus the build-failure `fail('Image build error')` transition. -/
def provEvent : Event → Bool
  | .failJob m => m == some "Image build error"
  | e => provOkEvent e

/-- The store-write discipline of the amended C2: a plain (non-transactional)
`set_system_info` never writes an `image/*` key other than `image/name`, and
every batch transaction is the `Docker image` one carrying exactly the eight
provenance keys. -/
def imageWriteOk : Event → Bool
  | .setInfo k _ => !str_starts k "image/" || k == "image/name"
  | .batch label ws => label == "Docker image" && ws.map Prod.fst == imageBatchKeys
  | _ => true

/-- A fixed `docker inspect` result used for concrete runs. -/
def inspEx : Inspection :=
  { id := "sha256:abc", dockerVersion := "18.09", created := "2019-01-01",
    container := "c0", architecture := "amd64", os := "linux", size := "120",
    rootfs := "layers" }

/-- A project configuration with no command, no dockerfile and no install
steps. -/
def pcPlain : ProjectConfig :=
  { command := none, dockerfile := .absent, install := .absent,
    docker := "docker", docker_options := [] }

/-- An environment in which every external interaction succeeds and the child
exits with code 0. -/
def envOk : Env :=
  { dockerfileExists := false, buildRc := 0, pullRc := 0, inspectRc := 0,
    inspections := [inspEx], childRc := 0, interrupted := false,
    childRunningAtPoll := true, hasProgressFile := false }

/-- A bare (non-containerized) job configuration with a plain-string command. -/
def jcBare : JobConfig := { command := some (.str "run.sh"), image := none }

/-- A containerized job configuration with a plain-string command. -/
def jcDocker : JobConfig := { command := some (.str "run.sh"), image := some "ubuntu" }

/-! ### Helper lemmas about event traces -/

theorem provOkEvent_provEvent (e : Event) (h : provOkEvent e = true) : provEvent e = true := by
  cases e <;> simp_all [provOkEvent, provEvent]

theorem all_provOk_provEvent (es : List Event) (h : es.all provOkEvent = true) :
    es.all provEvent = true := by
  rw [List.all_eq_true] at h ⊢
  exact fun e he => provOkEvent_provEvent e (h e he)

theorem provEvent_not_popen (e : Event) (h : provEvent e = true) (c : List String) :
    e ≠ Event.popen c := by
  cases e <;> simp_all [provEvent, provOkEvent]

theorem all_prov_no_popen (es : List Event) (h : es.all provEvent = true) :
    hasPopen es = false := by
  rw [List.all_eq_true] at h
  unfold hasPopen
  rw [List.any_eq_false]
  intro e he
  have := h e he
  cases e <;> simp_all [provEvent, provOkEvent]

theorem provOk_terminalOf (e : Event) (h : provOkEvent e = true) : terminalOf e = none := by
  cases e <;> simp_all [provOkEvent, terminalOf]

theorem lastTerminal_append (a b : List Event) :
    lastTerminal (a ++ b) =
      (match lastTerminal b with
       | some s => some s
       | none => lastTerminal a) := by
  induction a with
  | nil => cases hb : lastTerminal b <;> simp [lastTerminal, hb]
  | cons e rest ih =>
    show (match lastTerminal (rest ++ b) with
          | some s => some s
          | none => terminalOf e) = _
    rw [ih]
    cases hb : lastTerminal b
    · show (match lastTerminal rest with
            | some s => some s
            | none => terminalOf e) = lastTerminal (e :: rest)
      rfl
    · rfl

theorem all_provOk_lastTerminal (es : List Event) (h : es.all provOkEvent = true) :
    lastTerminal es = none := by
  induction es with
  | nil => rfl
  | cons e rest ih =>
    rw [List.all_cons, Bool.and_eq_true] at h
    unfold lastTerminal
    rw [ih h.2, provOk_terminalOf e h.1]

theorem resolve_dockerfile_all (image : String) (pc : ProjectConfig) (env : Env)
    (es : List Event) (dfile : String)
    (h : resolve_dockerfile image pc env = some (es, dfile)) : es.all provOkEvent = true := by
  unfold resolve_dockerfile at h
  split at h
  · injection h with h'
    injection h' with h1 h2
    subst h1
    rfl
  · split at h
    · exact absurd h (by simp)
    · injection h with h'
      injection h' with h1 h2
      subst h1
      rfl

theorem pull_inspect_rm_abort_all (jobId : String) (pc : ProjectConfig) (env : Env)
    (image : String) (es : List Event) (o : Outcome)
    (h : pull_inspect_rm jobId pc env image = .abortRun es o) : es.all provOkEvent = true := by
  unfold pull_inspect_rm at h
  split at h
  · injection h with h1 h2
    subst h1
    rfl
  · exact absurd h (by simp)

theorem pull_inspect_rm_ok_all (jobId : String) (pc : ProjectConfig) (env : Env)
    (image : String) (es : List Event) (img : String)
    (h : pull_inspect_rm jobId pc env image = .ok es img) : es.all provOkEvent = true := by
  unfold pull_inspect_rm at h
  split at h
  · exact absurd h (by simp)
  · injection h with h1 h2
    subst h1
    cases env.inspections with
    | nil => rfl
    | cons i rest =>
      simp [provOkEvent, inspectionWrites, imageBatchKeys]

theorem provision_abort_all (mn jobId image : String) (pc : ProjectConfig) (env : Env)
    (es : List Event) (o : Outcome)
    (h : provision mn jobId image pc env = .abortRun es o) : es.all provEvent = true := by
  revert h
  unfold provision
  split
  · cases hr : resolve_dockerfile image pc env with
    | none =>
      intro h
      injection h with h1 _
      subst h1
      rfl
    | some pr =>
      obtain ⟨eSynth, dfile⟩ := pr
      have hs : eSynth.all provOkEvent = true :=
        resolve_dockerfile_all image pc env eSynth dfile hr
      dsimp only
      by_cases hb : env.buildRc = 0
      · simp only [hb, ne_eq, not_true_eq_false, if_false, ite_false]
        cases hp : pull_inspect_rm jobId pc env mn with
        | abortRun es2 o2 =>
          dsimp only
          intro h
          injection h with h1 _
          subst h1
          have h2s := pull_inspect_rm_abort_all jobId pc env mn es2 o2 hp
          simp [List.all_append, provEvent, provOkEvent, all_provOk_provEvent _ hs,
            all_provOk_provEvent _ h2s]
        | ok es2 img2 =>
          dsimp only
          intro h
          exact absurd h (by simp)
      · simp only [hb, ne_eq, not_false_eq_true, if_true, ite_true]
        intro h
        injection h with h1 _
        subst h1
        simp [List.all_append, provEvent, provOkEvent, all_provOk_provEvent _ hs]
  · cases hp : pull_inspect_rm jobId pc env image with
    | abortRun es2 o2 =>
      dsimp only
      intro h
      injection h with h1 _
      subst h1
      have h2s := pull_inspect_rm_abort_all jobId pc env image es2 o2 hp
      simp [List.all_append, provEvent, provOkEvent, all_provOk_provEvent _ h2s]
    | ok es2 img2 =>
      dsimp only
      intro h
      exact absurd h (by simp)

theorem provision_ok_all (mn jobId image : String) (pc : ProjectConfig) (env : Env)
    (es : List Event) (img : String)
    (h : provision mn jobId image pc env = .ok es img) : es.all provOkEvent = true := by
  revert h
  unfold provision
  split
  · cases hr : resolve_dockerfile image pc env with
    | none =>
      intro h
      exact absurd h (by simp)
    | some pr =>
      obtain ⟨eSynth, dfile⟩ := pr
      have hs : eSynth.all provOkEvent = true :=
        resolve_dockerfile_all image pc env eSynth dfile hr
      dsimp only
      by_cases hb : env.buildRc = 0
      · simp only [hb, ne_eq, not_true_eq_false, if_false, ite_false]
        cases hp : pull_inspect_rm jobId pc env mn with
        | abortRun es2 o2 =>
          dsimp only
          intro h
          exact absurd h (by simp)
        | ok es2 img2 =>
          dsimp only
          intro h
          injection h with h1 _
          subst h1
          have h2s := pull_inspect_rm_ok_all jobId pc env mn es2 img2 hp
          simp [List.all_append, provOkEvent, hs, h2s]
      · simp only [hb, ne_eq, not_false_eq_true, if_true, ite_true]
        intro h
        exact absurd h (by simp)
  · cases hp : pull_inspect_rm jobId pc env image with
    | abortRun es2 o2 =>
      dsimp only
      intro h
      exact absurd h (by simp)
    | ok es2 img2 =>
      dsimp only
      intro h
      injection h with h1 _
      subst h1
      have h2s := pull_inspect_rm_ok_all jobId pc env image es2 img2 hp
      simp [List.all_append, provOkEvent, h2s]

theorem provEvent_imageWriteOk (e : Event) (h : provEvent e = true) : imageWriteOk e = true := by
  cases e <;> simp_all [provEvent, provOkEvent, imageWriteOk]

theorem all_prov_imageWriteOk (es : List Event) (h : es.all provEvent = true) :
    es.all imageWriteOk = true := by
  rw [List.all_eq_true] at h ⊢
  exact fun e he => provEvent_imageWriteOk e (h e he)

theorem drainDiscipline_prov_append (es rest : List Event) (h : es.all provEvent = true) :
    drainDiscipline (es ++ rest) = drainDiscipline rest := by
  induction es with
  | nil => rfl
  | cons e tl ih =>
    rw [List.all_cons, Bool.and_eq_true] at h
    have htl := ih h.2
    cases e <;> simp_all [drainDiscipline, provEvent, provOkEvent]

theorem start_custom_shape (mn jobId workTree : String) (jc : JobConfig) (pc : ProjectConfig)
    (env : Env) :
    (∃ msg, start_custom mn jobId workTree jc pc env = ([Event.errorLog msg], Outcome.exited 1)) ∨
    (∃ es o, start_custom mn jobId workTree jc pc env = (es, o) ∧ es.all provEvent = true) ∨
    (∃ es c, es.all provOkEvent = true ∧
      start_custom mn jobId workTree jc pc env =
        (es ++ (run_main c env).1, (run_main c env).2)) := by
  unfold start_custom
  split
  · exact Or.inl ⟨_, rfl⟩
  · cases him : jc.image with
    | none =>
      dsimp only
      refine Or.inr (Or.inr ⟨[], finalize_command (resolve_command jc pc), rfl, ?_⟩)
      rfl
    | some image =>
      dsimp only
      cases hp : provision mn jobId image pc env with
      | abortRun es o =>
        dsimp only
        exact Or.inr (Or.inl ⟨es, o, rfl, provision_abort_all mn jobId image pc env es o hp⟩)
      | ok es rimage =>
        dsimp only
        refine Or.inr (Or.inr ⟨es,
          build_docker_command pc.docker jobId workTree pc.docker_options rimage
            (resolve_command jc pc),
          provision_ok_all mn jobId image pc env es rimage hp, ?_⟩)
        rfl

theorem charLines_append_newline (a b : List Char) (h : '\n' ∉ a) :
    charLines (a ++ '\n' :: b) = a :: charLines b := by
  induction a with
  | nil => simp [charLines]
  | cons c rest ih =>
    rw [List.mem_cons, not_or] at h
    have hc : ¬(c = '\n') := fun he => h.1 he.symm
    rw [List.cons_append]
    show (if c = '\n' then [] :: charLines (rest ++ '\n' :: b)
          else
            match charLines (rest ++ '\n' :: b) with
            | [] => [[c]]
            | l :: ls => (c :: l) :: ls) = (c :: rest) :: charLines b
    rw [if_neg hc, ih h.2]

/-! ### C1 -/

/-- C1 (counterexample): the claim "for every synthesized build file …
the first non-comment line is `FROM <image>`" is false when the `dockerfile`
configuration is literal text: lines 88–89 use the text as-is, so for
`dockerfile = "RUN echo hi"` and image `ubuntu` the synthesized content's
first non-comment line is `RUN echo hi`, not `FROM ubuntu`. -/
theorem c1_counterexample :
    synth_dockerfile_content "ubuntu" (.str "RUN echo hi") .absent =
      some (aetros_comment ++ "\n" ++ "RUN echo hi") ∧
    (nonCommentLinesC (aetros_comment ++ "\n" ++ "RUN echo hi").data).head? =
      some "RUN echo hi".data ∧
    (nonCommentLinesC (aetros_comment ++ "\n" ++ "RUN echo hi").data).head? ≠
      some ("FROM " ++ "ubuntu").data := by
  refine ⟨rfl, by decide, by decide⟩

/-- C1 (amended, proved): when no dockerfile is given (absent, or the falsy
empty list) and install steps are given (a scalar string or a list of
strings), the synthesized build-file content has the machine-generated
provenance comment as its first line and exactly `FROM <image>` as its first
non-comment line, for any image reference without a newline.  A literal-text
dockerfile is instead used as-is after the comment, and a non-empty list
whose first line does not start with `FROM ` makes the source raise a
`TypeError`, because line 92 calls `list.insert` with its arguments swapped. -/
theorem c1_amended (image : String) (hnl : '\n' ∉ image.data)
    (dockerfile install : StrOrList)
    (hd : dockerfile = StrOrList.absent ∨ dockerfile = StrOrList.list [])
    (hi : install ≠ StrOrList.absent) :
    ∃ content, synth_dockerfile_content image dockerfile install = some content ∧
      (charLines content.data).head? = some aetros_comment.data ∧
      isCommentLine aetros_comment.data = true ∧
      (nonCommentLinesC content.data).head? = some (("FROM " ++ image).data) ∧
      isCommentLine (("FROM " ++ image).data) = false := by
  have dapp : ∀ s t : String, (s ++ t).data = s.data ++ t.data := fun s t => rfl
  have hA : '\n' ∉ aetros_comment.data := by decide
  have hcA : isCommentLine aetros_comment.data = true := by decide
  have hF : '\n' ∉ ("FROM " ++ image).data := by
    intro hmem
    rw [dapp, List.mem_append] at hmem
    rcases hmem with h1 | h2
    · exact absurd h1 (by decide)
    · exact hnl h2
  have hcF : isCommentLine (("FROM " ++ image).data) = false := rfl
  have main : ∀ X : String,
      (charLines ((aetros_comment ++ "\n" ++ ("FROM " ++ image ++ "\nRUN " ++ X)).data)).head? =
          some aetros_comment.data ∧
        (nonCommentLinesC
            ((aetros_comment ++ "\n" ++ ("FROM " ++ image ++ "\nRUN " ++ X)).data)).head? =
          some (("FROM " ++ image).data) := by
    intro X
    have h1 : "\n".data = ['\n'] := rfl
    have h2 : "\nRUN ".data = '\n' :: "RUN ".data := rfl
    have hdata : (aetros_comment ++ "\n" ++ ("FROM " ++ image ++ "\nRUN " ++ X)).data =
        aetros_comment.data ++
          '\n' :: (("FROM " ++ image).data ++ '\n' :: ("RUN ".data ++ X.data)) := by
      simp only [dapp, h1, h2, List.append_assoc, List.singleton_append, List.cons_append,
        List.nil_append]
    rw [nonCommentLinesC, hdata, charLines_append_newline _ _ hA,
      charLines_append_newline _ _ hF]
    refine ⟨rfl, ?_⟩
    have hcF2 : isCommentLine ('F' :: 'R' :: 'O' :: 'M' :: ' ' :: image.data) = false := rfl
    simp [List.filter_cons, hcA, hcF, hcF2]
  rcases hd with hd | hd <;> subst hd <;> cases install with
  | absent => exact absurd rfl hi
  | str s => exact ⟨_, rfl, (main s).1, hcA, (main s).2, hcF⟩
  | list l => exact ⟨_, rfl, (main (String.intercalate "\n RUN " l)).1, hcA,
      (main (String.intercalate "\n RUN " l)).2, hcF⟩

/-- C1 (witness): the amended theorem applied to image `ubuntu` with a single
scalar install step. -/
theorem c1_witness :
    ('\n' ∉ "ubuntu".data) ∧
    (StrOrList.absent = StrOrList.absent ∨ StrOrList.absent = StrOrList.list []) ∧
    (StrOrList.str "pip install x" ≠ StrOrList.absent) ∧
    (∃ content,
      synth_dockerfile_content "ubuntu" StrOrList.absent (StrOrList.str "pip install x") =
        some content ∧
      (charLines content.data).head? = some aetros_comment.data ∧
      isCommentLine aetros_comment.data = true ∧
      (nonCommentLinesC content.data).head? = some (("FROM " ++ "ubuntu").data) ∧
      isCommentLine (("FROM " ++ "ubuntu").data) = false) :=
  ⟨by decide, Or.inl rfl, by decide,
    c1_amended "ubuntu" (by decide) StrOrList.absent (StrOrList.str "pip install x")
      (Or.inl rfl) (by decide)⟩

/-! ### C2 -/

theorem run_main_imageWriteOk (c : List String) (env : Env) :
    (run_main c env).1.all imageWriteOk = true := by
  have hkey : ∀ v, imageWriteOk (Event.setInfo "exit_code" v) = true := fun v => rfl
  unfold run_main
  cases hI : env.interrupted <;>
    cases hR : env.childRunningAtPoll <;>
      cases hP : env.hasProgressFile <;>
        by_cases hrc : env.childRc = 0 <;>
          simp [hrc, hkey, imageWriteOk, List.all_append] <;> decide

/-- C2 (counterexample): the claim "all image provenance keys written under
the `image/*` namespace are written inside a single atomic store transaction"
is false: line 82 writes `image/name` with a plain, non-transactional
`set_system_info` before provisioning even starts, while the other eight
`image/*` keys are written later inside the `batch_commit('Docker image')`
scope — so the partial subset `{image/name}` is observable. -/
theorem c2_counterexample :
    imageKeysOutsideBatch
        (start_custom "o/m" "jid" "/wt" jcDocker pcPlain envOk).1 = ["image/name"] ∧
    Event.batch "Docker image" (inspectionWrites inspEx) ∈
      (start_custom "o/m" "jid" "/wt" jcDocker pcPlain envOk).1 := by
  exact ⟨by decide, by decide⟩

/-- C2 (amended, proved): in every run, the eight inspection-derived
provenance keys (`image/id`, `image/docker_version`, `image/created`,
`image/container`, `image/architecture`, `image/os`, `image/size`,
`image/rootfs`) only ever appear together inside the single
`batch_commit('Docker image')` transaction — every batch event in a trace is
that transaction and carries exactly those eight keys — while the only
`image/*` key a plain non-transactional `set_system_info` ever writes is
`image/name` (written before the build/pull, outside any transaction). -/
theorem c2_amended (mn jobId workTree : String) (jc : JobConfig) (pc : ProjectConfig)
    (env : Env) :
    (start_custom mn jobId workTree jc pc env).1.all imageWriteOk = true := by
  rcases start_custom_shape mn jobId workTree jc pc env with
    ⟨msg, heq⟩ | ⟨es, o, heq, hall⟩ | ⟨es, c, hok, heq⟩
  · rw [heq]
    rfl
  · rw [heq]
    exact all_prov_imageWriteOk es hall
  · rw [heq]
    simp only [List.all_append, Bool.and_eq_true]
    exact ⟨all_prov_imageWriteOk es (all_provOk_provEvent es hok), run_main_imageWriteOk c env⟩

/-! ### C3 -/

/-- C3 (counterexample): the claim "a pull failure is propagated, not
silently ignored" is false.  With every other interaction succeeding but
`docker pull` returning exit code 1, the run still completes normally: the
supervisor exits 0 and no failure transition is ever recorded — lines
131–132 discard the `execute_command` result, and `execute_command` itself
(lines 226–235) does not raise on a non-zero exit. -/
theorem c3_counterexample :
    (start_custom "o/m" "jid" "/wt" jcDocker pcPlain { envOk with pullRc := 1 }).2 =
      Outcome.exited 0 ∧
    Event.exec ["docker", "pull", "ubuntu"] ∈
      (start_custom "o/m" "jid" "/wt" jcDocker pcPlain { envOk with pullRc := 1 }).1 ∧
    lastTerminal
        (start_custom "o/m" "jid" "/wt" jcDocker pcPlain { envOk with pullRc := 1 }).1 =
      none :=
  ⟨by decide, by decide, by decide⟩

/-- C3 (amended, proved): the exit status of the `docker pull` invocation is
never consulted — the whole run (its event trace and its outcome) is
identical whatever exit code the pull returns, so a pull failure is silently
ignored rather than propagated.  A genuinely absent image only surfaces
later, when the `docker inspect` helper raises on its own non-zero exit. -/
theorem c3_amended (mn jobId workTree : String) (jc : JobConfig) (pc : ProjectConfig)
    (env : Env) (rc : Int) :
    start_custom mn jobId workTree jc pc { env with pullRc := rc } =
      start_custom mn jobId workTree jc pc env := by
  cases env
  rfl

/-! ### C4 -/

/-- C4 (counterexample): the claim fails for a job-level `command` that is
present but empty: line 65 checks only key *presence* at the job level, so
with job `command = ''` (and no project-level command, hence no configuration
providing a non-empty command) no missing-command error is raised and a child
process `['sh', '-c', '']` is spawned, the run exiting with its code 0. -/
theorem c4_counterexample :
    hasPopen (start_custom "o/m" "jid" "/wt" ⟨some (.str ""), none⟩ pcPlain envOk).1 = true ∧
    Event.popen ["sh", "-c", ""] ∈
      (start_custom "o/m" "jid" "/wt" ⟨some (.str ""), none⟩ pcPlain envOk).1 ∧
    (start_custom "o/m" "jid" "/wt" ⟨some (.str ""), none⟩ pcPlain envOk).2 =
      Outcome.exited 0 :=
  ⟨by decide, by decide, by decide⟩

/-- C4 (amended, proved): when the job-level configuration has no `command`
key at all and the project-level `command` is missing or the empty string,
the run logs the user-visible missing-command error, exits with code 1, and
never spawns a child process.  (A job-level `command` that is present but
empty is accepted and executed.) -/
theorem c4_amended (mn jobId workTree : String) (jc : JobConfig) (pc : ProjectConfig)
    (env : Env) (h1 : jc.command = none)
    (h2 : pc.command = none ∨ pc.command = some (.str "")) :
    start_custom mn jobId workTree jc pc env =
      ([Event.errorLog "No \"command\" specified in .aetros.yml file. See Configuration section in the documentation."],
        Outcome.exited 1) ∧
    hasPopen (start_custom mn jobId workTree jc pc env).1 = false := by
  have hmc : missing_command jc pc = true := by
    rcases h2 with h2 | h2 <;> simp [missing_command, h1, h2, cmd_is_empty_str]
  have heq : start_custom mn jobId workTree jc pc env =
      ([Event.errorLog "No \"command\" specified in .aetros.yml file. See Configuration section in the documentation."],
        Outcome.exited 1) := by
    unfold start_custom
    simp [hmc]
  exact ⟨heq, by rw [heq]; rfl⟩

/-- C4 (witness): the amended theorem applied to a configuration with no
`command` key at either level. -/
theorem c4_witness :
    (JobConfig.command ⟨none, none⟩ = none) ∧
    (pcPlain.command = none ∨ pcPlain.command = some (.str "")) ∧
    (start_custom "o/m" "jid" "/wt" ⟨none, none⟩ pcPlain envOk =
      ([Event.errorLog "No \"command\" specified in .aetros.yml file. See Configuration section in the documentation."],
        Outcome.exited 1) ∧
    hasPopen (start_custom "o/m" "jid" "/wt" ⟨none, none⟩ pcPlain envOk).1 = false) :=
  ⟨rfl, Or.inl rfl,
    c4_amended "o/m" "jid" "/wt" ⟨none, none⟩ pcPlain envOk rfl (Or.inl rfl)⟩

/-! ### C5 -/

theorem run_main_no_interrupt (c : List String) (env : Env) (h : env.interrupted = false) :
    run_main c env =
      ([Event.popen c, Event.attachDrain .stdout, Event.attachDrain .stderr, Event.procWait,
        Event.finalizeDrain .stdout, Event.finalizeDrain .stderr,
        Event.setInfo "exit_code" (toString env.childRc)] ++
        (if env.childRc ≠ 0 then [Event.failJob none] else []),
       Outcome.exited env.childRc) := by
  unfold run_main
  rw [h]
  simp

theorem lastTerminal_run_main_no_interrupt (c : List String) (env : Env)
    (h : env.interrupted = false) :
    lastTerminal (run_main c env).1 =
      if env.childRc = 0 then none else some JState.failed := by
  rw [run_main_no_interrupt c env h]
  by_cases hrc : env.childRc = 0 <;>
    simp [hrc, lastTerminal, terminalOf, lastTerminal_append]

/-- C5 (confirmed): for every run that launches the supervised child and is
not interrupted, the supervisor records the child's exit code N under the
`exit_code` system_info key, its own outcome is `sys.exit(N)`, and the final
job state is `Done` when N = 0 and `Failed` when N ≠ 0 (lines 188–193; the
`Done`-on-clean-exit part relies on the spec-modelled shutdown behaviour of
the JobBackend, which is not part of the supervised slice). -/
theorem c5_exit_propagation (mn jobId workTree : String) (jc : JobConfig)
    (pc : ProjectConfig) (env : Env) (hni : env.interrupted = false)
    (hp : hasPopen (start_custom mn jobId workTree jc pc env).1 = true) :
    (start_custom mn jobId workTree jc pc env).2 = Outcome.exited env.childRc ∧
    Event.setInfo "exit_code" (toString env.childRc) ∈
      (start_custom mn jobId workTree jc pc env).1 ∧
    finalJobState (start_custom mn jobId workTree jc pc env).1
        (start_custom mn jobId workTree jc pc env).2 =
      some (if env.childRc = 0 then JState.done else JState.failed) := by
  rcases start_custom_shape mn jobId workTree jc pc env with
    ⟨msg, heq⟩ | ⟨es, o, heq, hall⟩ | ⟨es, c, hok, heq⟩
  · have h1 : hasPopen (start_custom mn jobId workTree jc pc env).1 = false := by
      rw [heq]
      rfl
    rw [h1] at hp
    exact absurd hp (by decide)
  · have h1 : hasPopen (start_custom mn jobId workTree jc pc env).1 = false := by
      rw [heq]
      exact all_prov_no_popen es hall
    rw [h1] at hp
    exact absurd hp (by decide)
  · have h1 : (start_custom mn jobId workTree jc pc env).1 = es ++ (run_main c env).1 := by
      rw [heq]
    have h2 : (start_custom mn jobId workTree jc pc env).2 = (run_main c env).2 := by
      rw [heq]
    refine ⟨?_, ?_, ?_⟩
    · rw [h2, run_main_no_interrupt c env hni]
    · rw [h1, run_main_no_interrupt c env hni]
      simp
    · rw [h1, h2]
      unfold finalJobState
      rw [lastTerminal_append, lastTerminal_run_main_no_interrupt c env hni,
        all_provOk_lastTerminal es hok, run_main_no_interrupt c env hni]
      by_cases hrc : env.childRc = 0 <;> simp [hrc]

/-- C5 (witness): a bare run whose child exits with code 37. -/
theorem c5_witness :
    ({ envOk with childRc := 37 } : Env).interrupted = false ∧
    hasPopen
        (start_custom "o/m" "jid" "/wt" jcBare pcPlain { envOk with childRc := 37 }).1 = true ∧
    ((start_custom "o/m" "jid" "/wt" jcBare pcPlain { envOk with childRc := 37 }).2 =
        Outcome.exited ({ envOk with childRc := 37 } : Env).childRc ∧
      Event.setInfo "exit_code" (toString ({ envOk with childRc := 37 } : Env).childRc) ∈
        (start_custom "o/m" "jid" "/wt" jcBare pcPlain { envOk with childRc := 37 }).1 ∧
      finalJobState
          (start_custom "o/m" "jid" "/wt" jcBare pcPlain { envOk with childRc := 37 }).1
          (start_custom "o/m" "jid" "/wt" jcBare pcPlain { envOk with childRc := 37 }).2 =
        some (if ({ envOk with childRc := 37 } : Env).childRc = 0 then JState.done
          else JState.failed)) :=
  ⟨rfl, by decide,
    c5_exit_propagation "o/m" "jid" "/wt" jcBare pcPlain { envOk with childRc := 37 }
      rfl (by decide)⟩

/-! ### C6 -/

theorem run_main_interrupt (c : List String) (env : Env) (h : env.interrupted = true) :
    (run_main c env).2 = Outcome.finished ∧
    lastTerminal (run_main c env).1 =
      some (if env.hasProgressFile then JState.stopped else JState.aborted) := by
  unfold run_main
  rw [h]
  cases hR : env.childRunningAtPoll <;>
    cases hP : env.hasProgressFile <;>
      simp [lastTerminal, terminalOf, lastTerminal_append]

/-- C6 (confirmed): for every run that launches the supervised child and is
then cancelled by a `KeyboardInterrupt`, after the child has been waited for
and the drains finalized (when still running at poll time), the final state is
`Stopped` exactly when the nested status file
`aetros/job/status/progress.json` exists in the store's tree, and `Aborted`
when it does not (lines 194–211). -/
theorem c6_interrupt_classification (mn jobId workTree : String) (jc : JobConfig)
    (pc : ProjectConfig) (env : Env) (hint : env.interrupted = true)
    (hp : hasPopen (start_custom mn jobId workTree jc pc env).1 = true) :
    (start_custom mn jobId workTree jc pc env).2 = Outcome.finished ∧
    finalJobState (start_custom mn jobId workTree jc pc env).1
        (start_custom mn jobId workTree jc pc env).2 =
      some (if env.hasProgressFile then JState.stopped else JState.aborted) := by
  rcases start_custom_shape mn jobId workTree jc pc env with
    ⟨msg, heq⟩ | ⟨es, o, heq, hall⟩ | ⟨es, c, hok, heq⟩
  · have h1 : hasPopen (start_custom mn jobId workTree jc pc env).1 = false := by
      rw [heq]
      rfl
    rw [h1] at hp
    exact absurd hp (by decide)
  · have h1 : hasPopen (start_custom mn jobId workTree jc pc env).1 = false := by
      rw [heq]
      exact all_prov_no_popen es hall
    rw [h1] at hp
    exact absurd hp (by decide)
  · have h1 : (start_custom mn jobId workTree jc pc env).1 = es ++ (run_main c env).1 := by
      rw [heq]
    have h2 : (start_custom mn jobId workTree jc pc env).2 = (run_main c env).2 := by
      rw [heq]
    refine ⟨?_, ?_⟩
    · rw [h2, (run_main_interrupt c env hint).1]
    · rw [h1, h2]
      unfold finalJobState
      rw [lastTerminal_append, (run_main_interrupt c env hint).2]

/-- C6 (witness): an interrupted bare run with the nested status file
present, classified as stopped. -/
theorem c6_witness :
    ({ envOk with interrupted := true, hasProgressFile := true } : Env).interrupted = true ∧
    hasPopen
        (start_custom "o/m" "jid" "/wt" jcBare pcPlain
          { envOk with interrupted := true, hasProgressFile := true }).1 = true ∧
    ((start_custom "o/m" "jid" "/wt" jcBare pcPlain
          { envOk with interrupted := true, hasProgressFile := true }).2 =
        Outcome.finished ∧
      finalJobState
          (start_custom "o/m" "jid" "/wt" jcBare pcPlain
            { envOk with interrupted := true, hasProgressFile := true }).1
          (start_custom "o/m" "jid" "/wt" jcBare pcPlain
            { envOk with interrupted := true, hasProgressFile := true }).2 =
        some
          (if ({ envOk with interrupted := true, hasProgressFile := true } : Env).hasProgressFile
            then JState.stopped else JState.aborted)) :=
  ⟨rfl, by decide,
    c6_interrupt_classification "o/m" "jid" "/wt" jcBare pcPlain
      { envOk with interrupted := true, hasProgressFile := true } rfl (by decide)⟩

/-! ### C7 -/

theorem provision_build_fail (mn jobId image : String) (pc : ProjectConfig) (env : Env)
    (eS : List Event) (df : String)
    (hbuild : (pc.dockerfile.truthy || pc.install.truthy) = true)
    (hr : resolve_dockerfile image pc env = some (eS, df))
    (hrc : env.buildRc ≠ 0) :
    provision mn jobId image pc env =
      .abortRun
        ([Event.setInfo "image/name" image] ++ eS ++
            [Event.exec [pc.docker, "build", "-t", mn, "-f", df, "."]] ++
          [Event.failJob (some "Image build error")])
        (.exited env.buildRc) := by
  unfold provision
  rw [hbuild, hr]
  simp [hrc]

/-- C7 (confirmed): for every containerized run with a build step (a truthy
`dockerfile` or `install`, and a usable build file), a non-zero build exit
fails the job (`fail('Image build error')`, final state `Failed`), the
supervisor exits with exactly the build tool's exit code, and the resolved
command is never launched (lines 122–128). -/
theorem c7_build_failure (mn jobId workTree : String) (jc : JobConfig) (pc : ProjectConfig)
    (env : Env) (img : String)
    (hmc : missing_command jc pc = false)
    (him : jc.image = some img)
    (hbuild : (pc.dockerfile.truthy || pc.install.truthy) = true)
    (hdf : (resolve_dockerfile img pc env).isSome = true)
    (hrc : env.buildRc ≠ 0) :
    (start_custom mn jobId workTree jc pc env).2 = Outcome.exited env.buildRc ∧
    Event.failJob (some "Image build error") ∈ (start_custom mn jobId workTree jc pc env).1 ∧
    hasPopen (start_custom mn jobId workTree jc pc env).1 = false ∧
    finalJobState (start_custom mn jobId workTree jc pc env).1
        (start_custom mn jobId workTree jc pc env).2 = some JState.failed := by
  rw [Option.isSome_iff_exists] at hdf
  obtain ⟨⟨eS, df⟩, hr⟩ := hdf
  have hprov := provision_build_fail mn jobId img pc env eS df hbuild hr hrc
  have heq : start_custom mn jobId workTree jc pc env =
      ([Event.setInfo "image/name" img] ++ eS ++
          [Event.exec [pc.docker, "build", "-t", mn, "-f", df, "."]] ++
        [Event.failJob (some "Image build error")],
       Outcome.exited env.buildRc) := by
    unfold start_custom
    rw [him]
    simp [hmc, hprov]
  have hall : ([Event.setInfo "image/name" img] ++ eS ++
      [Event.exec [pc.docker, "build", "-t", mn, "-f", df, "."]] ++
      [Event.failJob (some "Image build error")]).all provEvent = true :=
    provision_abort_all mn jobId img pc env _ _ hprov
  refine ⟨by rw [heq], ?_, ?_, ?_⟩
  · rw [heq]
    simp
  · have h1 : (start_custom mn jobId workTree jc pc env).1 =
        [Event.setInfo "image/name" img] ++ eS ++
          [Event.exec [pc.docker, "build", "-t", mn, "-f", df, "."]] ++
          [Event.failJob (some "Image build error")] := by
      rw [heq]
    rw [h1]
    exact all_prov_no_popen _ hall
  · rw [heq]
    unfold finalJobState
    rw [lastTerminal_append]
    rfl

/-- C7 (witness): an install-only containerized run whose image build exits
with code 2. -/
theorem c7_witness :
    missing_command jcDocker { pcPlain with install := .str "pip install x" } = false ∧
    jcDocker.image = some "ubuntu" ∧
    (({ pcPlain with install := .str "pip install x" } : ProjectConfig).dockerfile.truthy ||
      ({ pcPlain with install := .str "pip install x" } : ProjectConfig).install.truthy) = true ∧
    (resolve_dockerfile "ubuntu" { pcPlain with install := .str "pip install x" }
        { envOk with buildRc := 2 }).isSome = true ∧
    ({ envOk with buildRc := 2 } : Env).buildRc ≠ 0 ∧
    ((start_custom "o/m" "jid" "/wt" jcDocker { pcPlain with install := .str "pip install x" }
          { envOk with buildRc := 2 }).2 =
        Outcome.exited ({ envOk with buildRc := 2 } : Env).buildRc ∧
      Event.failJob (some "Image build error") ∈
        (start_custom "o/m" "jid" "/wt" jcDocker { pcPlain with install := .str "pip install x" }
          { envOk with buildRc := 2 }).1 ∧
      hasPopen
          (start_custom "o/m" "jid" "/wt" jcDocker
            { pcPlain with install := .str "pip install x" } { envOk with buildRc := 2 }).1 =
        false ∧
      finalJobState
          (start_custom "o/m" "jid" "/wt" jcDocker
            { pcPlain with install := .str "pip install x" } { envOk with buildRc := 2 }).1
          (start_custom "o/m" "jid" "/wt" jcDocker
            { pcPlain with install := .str "pip install x" } { envOk with buildRc := 2 }).2 =
        some JState.failed) :=
  ⟨rfl, rfl, rfl, by decide, by decide,
    c7_build_failure "o/m" "jid" "/wt" jcDocker
      { pcPlain with install := .str "pip install x" } { envOk with buildRc := 2 } "ubuntu"
      rfl rfl rfl (by decide) (by decide)⟩

/-! ### C8 -/

theorem run_main_drainDiscipline (c : List String) (env : Env) :
    drainDiscipline (run_main c env).1 = true := by
  unfold run_main
  cases hI : env.interrupted <;>
    cases hR : env.childRunningAtPoll <;>
      cases hP : env.hasProgressFile <;>
        by_cases hrc : env.childRc = 0 <;>
          simp [hrc, drainDiscipline, afterLaunch]

/-- C8 (confirmed): in every run, the supervised child follows the drain
discipline of lines 180–186: at most one child is launched; when it is, the
launch is immediately followed by exactly one stdout drain attach and one
stderr drain attach, both before any wait on the process; and every drain
finalizer invocation happens only after a completed wait, i.e. only after the
process has been observed to terminate (an interrupted wait does not count). -/
theorem c8_drain_discipline (mn jobId workTree : String) (jc : JobConfig)
    (pc : ProjectConfig) (env : Env) :
    drainDiscipline (start_custom mn jobId workTree jc pc env).1 = true := by
  rcases start_custom_shape mn jobId workTree jc pc env with
    ⟨msg, heq⟩ | ⟨es, o, heq, hall⟩ | ⟨es, c, hok, heq⟩
  · rw [heq]
    rfl
  · have h1 : (start_custom mn jobId workTree jc pc env).1 = es := by rw [heq]
    rw [h1, ← List.append_nil es, drainDiscipline_prov_append es [] hall]
    rfl
  · have h1 : (start_custom mn jobId workTree jc pc env).1 = es ++ (run_main c env).1 := by
      rw [heq]
    rw [h1, drainDiscipline_prov_append es (run_main c env).1 (all_provOk_provEvent es hok)]
    exact run_main_drainDiscipline c env

/-! ### C9 -/

/-- C9 (confirmed): command wrapping, lines 163–171.  A resolved plain-string
command is executed as exactly `['sh', '-c', <command>]` and an argv vector
is executed verbatim; for containerized runs the identical wrapping rule
produces the segment appended after the image reference of the container-run
argv.  In the bare path the launched argv is exactly the wrapped command. -/
theorem c9_command_wrapping (mn jobId workTree : String) (jc : JobConfig)
    (pc : ProjectConfig) (env : Env) (s : String) (l : List String) (img : String)
    (hmc : missing_command jc pc = false) :
    finalize_command (.str s) = ["sh", "-c", s] ∧
    finalize_command (.vec l) = l ∧
    build_docker_command pc.docker jobId workTree pc.docker_options img (.str s) =
      docker_run_base pc.docker jobId workTree pc.docker_options img ++ ["sh", "-c", s] ∧
    build_docker_command pc.docker jobId workTree pc.docker_options img (.vec l) =
      docker_run_base pc.docker jobId workTree pc.docker_options img ++ l ∧
    (jc.image = none →
      Event.popen (finalize_command (resolve_command jc pc)) ∈
        (start_custom mn jobId workTree jc pc env).1) := by
  refine ⟨rfl, rfl, ?_, ?_, ?_⟩
  · simp [build_docker_command, docker_run_base]
  · simp [build_docker_command, docker_run_base]
  · intro him
    unfold start_custom
    rw [him]
    simp only [hmc, Bool.false_eq_true, if_false, ite_false]
    unfold run_main
    cases hI : env.interrupted <;> simp

/-- C9 (witness): the wrapping rule applied at a concrete bare run with a
plain-string command. -/
theorem c9_witness :
    missing_command jcBare pcPlain = false ∧
    (finalize_command (.str "run.sh") = ["sh", "-c", "run.sh"] ∧
      finalize_command (.vec ["python", "t.py"]) = ["python", "t.py"] ∧
      build_docker_command pcPlain.docker "jid" "/wt" pcPlain.docker_options "ubuntu"
          (.str "run.sh") =
        docker_run_base pcPlain.docker "jid" "/wt" pcPlain.docker_options "ubuntu" ++
          ["sh", "-c", "run.sh"] ∧
      build_docker_command pcPlain.docker "jid" "/wt" pcPlain.docker_options "ubuntu"
          (.vec ["python", "t.py"]) =
        docker_run_base pcPlain.docker "jid" "/wt" pcPlain.docker_options "ubuntu" ++
          ["python", "t.py"] ∧
      (jcBare.image = none →
        Event.popen (finalize_command (resolve_command jcBare pcPlain)) ∈
          (start_custom "o/m" "jid" "/wt" jcBare pcPlain envOk).1)) :=
  ⟨rfl, c9_command_wrapping "o/m" "jid" "/wt" jcBare pcPlain envOk "run.sh"
    ["python", "t.py"] "ubuntu" rfl⟩

/-! ### C10 -/

/-- C10 (confirmed): the container-run argv has the fixed structure of lines
151–166: the runtime binary, `run`, `--name <job id>`, the configured
docker_options in order, the bind mount of the work tree to `/exp`, the
working-directory option `-w /exp`, the image reference, and finally the
resolved command segment; and in a containerized run without a build step the
launched argv is exactly this vector for the configured image. -/
theorem c10_docker_run_structure (mn jobId workTree : String) (jc : JobConfig)
    (pc : ProjectConfig) (env : Env) (img : String) (c : CmdVal)
    (hmc : missing_command jc pc = false)
    (him : jc.image = some img)
    (hnb : pc.dockerfile.truthy = false) (hni : pc.install.truthy = false)
    (hinsp : env.inspectRc = 0) :
    build_docker_command pc.docker jobId workTree pc.docker_options img c =
      docker_run_base pc.docker jobId workTree pc.docker_options img ++
        finalize_command c ∧
    Event.popen
        (build_docker_command pc.docker jobId workTree pc.docker_options img
          (resolve_command jc pc)) ∈
      (start_custom mn jobId workTree jc pc env).1 := by
  constructor
  · cases c <;> simp [build_docker_command, docker_run_base, finalize_command]
  · have hprov : provision mn jobId img pc env =
        .ok ([Event.setInfo "image/name" img] ++
            ([Event.exec [pc.docker, "pull", img], Event.exec [pc.docker, "inspect", img]] ++
              (match env.inspections with
               | [] => []
               | i :: _ => [Event.batch "Docker image" (inspectionWrites i)]) ++
              [Event.exec [pc.docker, "rm", jobId]]))
          img := by
      unfold provision pull_inspect_rm
      rw [hnb, hni]
      simp [hinsp]
    unfold start_custom
    rw [him]
    simp only [hmc, Bool.false_eq_true, if_false, ite_false]
    rw [hprov]
    unfold run_main
    cases hI : env.interrupted <;> simp

/-- C10 (witness): a containerized run without a build step launches the
fully structured container-run argv. -/
theorem c10_witness :
    missing_command jcDocker pcPlain = false ∧
    jcDocker.image = some "ubuntu" ∧
    pcPlain.dockerfile.truthy = false ∧
    pcPlain.install.truthy = false ∧
    envOk.inspectRc = 0 ∧
    (build_docker_command pcPlain.docker "jid" "/wt" pcPlain.docker_options "ubuntu"
          (.str "run.sh") =
        docker_run_base pcPlain.docker "jid" "/wt" pcPlain.docker_options "ubuntu" ++
          finalize_command (.str "run.sh") ∧
      Event.popen
          (build_docker_command pcPlain.docker "jid" "/wt" pcPlain.docker_options "ubuntu"
            (resolve_command jcDocker pcPlain)) ∈
        (start_custom "o/m" "jid" "/wt" jcDocker pcPlain envOk).1) :=
  ⟨rfl, rfl, rfl, rfl, rfl,
    c10_docker_run_structure "o/m" "jid" "/wt" jcDocker pcPlain envOk "ubuntu"
      (.str "run.sh") rfl rfl rfl rfl rfl⟩
